import Mathlib

/-!
Verification of the B+tree index of `btree.py` (classes `Node` and `Btree`).

The embedding is a direct translation of the Python source:
* keys (`values`) are `Int`, pointers (`ptrs` — record pointers in leaves,
  child node ids in internal nodes) are `Nat`;
* the arena `Btree.nodes` is a `List Node`; node ids are list indices;
* Python attribute writes `self.nodes[i].attr = v` become `updateNode`;
* any Python crash (IndexError, TypeError from `self.nodes[None]`,
  an infinite loop on a malformed node graph) is modelled as `none`,
  so every fallible operation returns an `Option`;
* `print` calls in `delete` are modelled as an explicit message value.

A note on the source's `Node.__init__` mutable default arguments
(`values=[]`, `ptrs=[]`): within a single tree only the very first root
leaf is created with the defaults, and the split that later rebinds
`node.values` / `node.ptrs` replaces the lists wholesale, so for the
single-tree programs considered here the sharing is unobservable and the
embedding uses fresh empty lists.
-/

/-- Python `list.insert(i, x)`: insert `x` before position `i`
(appends when `i ≥ length`). -/
def pyInsert (l : List α) (i : Nat) (x : α) : List α :=
  l.take i ++ x :: l.drop i

/-- `class Node` (btree.py lines 7-20).  The `b` attribute stored on the
Python object is never read anywhere in the source, so it is omitted. -/
structure Node where
  values : List Int
  ptrs : List Nat
  left_sibling : Option Nat := none
  right_sibling : Option Nat := none
  parent : Option Nat := none
  is_leaf : Bool := false
  deriving Repr, DecidableEq

/-- `Node.find` (lines 22-47): on an internal node, return the child
pointer at the first index whose key exceeds `value`, else the last
pointer (`self.ptrs[-1]`).  On a leaf the Python method returns `None`;
that case and an IndexError on `ptrs` are both modelled as `none`.
(The `return_ops` benchmarking counter plays no part in the result and
is omitted.) -/
def Node.find (n : Node) (value : Int) : Option Nat :=
  if n.is_leaf then none
  else
    match n.values.findIdx? (fun v => value < v) with
    | some i => n.ptrs.get? i
    | none => n.ptrs.getLast?

/-- `Node.insert` (lines 49-75): insert `value` before the first larger
key, and insert `ptr` at position `index + 1` of `ptrs` (this is the
source's arithmetic; for a mid-leaf insertion it puts the pointer one
slot to the right of its key).  If no key is larger, append both.
The optional `ptr1` argument is never supplied by any caller in the
repository and is omitted. -/
def Node.insert (n : Node) (value : Int) (ptr : Nat) : Node :=
  match n.values.findIdx? (fun v => value < v) with
  | some i => { n with values := pyInsert n.values i value,
                       ptrs := pyInsert n.ptrs (i + 1) ptr }
  | none => { n with values := n.values ++ [value], ptrs := n.ptrs ++ [ptr] }

/-- `class Btree.__init__` (lines 89-95). -/
structure Btree where
  b : Nat
  nodes : List Node := []
  root : Option Nat := none
  deriving Repr, DecidableEq

/-- A fresh tree, `Btree(b)`. -/
def Btree.new (b : Nat) : Btree := { b := b }

/-- One Python attribute write `self.nodes[i].attr = v` (as a whole-node
update); `none` models an IndexError on a bad id. -/
def updateNode (ns : List Node) (i : Nat) (f : Node → Node) : Option (List Node) :=
  match ns.get? i with
  | none => none
  | some n => some (ns.set i (f n))

/-- The descent loop of `Btree._search` (lines 125-131), with fuel:
`none` models a crash on a dangling id or a non-terminating descent on a
malformed node graph.  `self.nodes.index(node)` in the source recovers
the index of the node object just reached, which is the index the loop
is already holding, so the embedding simply returns it. -/
def searchLoop (nodes : List Node) (value : Int) : Nat → Nat → Option Nat
  | _, 0 => none
  | idx, fuel + 1 =>
    match nodes.get? idx with
    | none => none
    | some n =>
      if n.is_leaf then some idx
      else
        match n.find value with
        | none => none
        | some nxt => searchLoop nodes value nxt fuel

/-- `Btree._search` (lines 115-137).  With `root = None` the source
evaluates `self.nodes[None]` and raises a TypeError; that failure is
`none`. -/
def Btree.search (t : Btree) (value : Int) : Option Nat :=
  match t.root with
  | none => none
  | some r => searchLoop t.nodes value r (t.nodes.length + 1)

/-- `for ptr in right_ptrs: self.nodes[ptr].parent = len(self.nodes)`
(lines 177-178), performed left to right. -/
def reparent (ns : List Node) (ptrs : List Nat) (newParent : Nat) : Option (List Node) :=
  match ptrs with
  | [] => some ns
  | p :: rest =>
    match updateNode ns p (fun m => { m with parent := some newParent }) with
    | none => none
    | some ns' => reparent ns' rest newParent

/-- `Btree.split` (lines 139-208), with fuel bounding the upward
recursion of line 208.  The mutation order follows the source:
the promoted key is read first; the leaf branch builds the right node
and relinks the sibling chain, the internal branch builds the right
node, clears `right_sibling` and reparents the moved children; then the
left node is truncated (with the source's parity-dependent pointer
boundary), the right node is appended, and either a new root is created
or the parent receives the promoted key and is split in turn when it
reaches `b` keys. -/
def Btree.split (t : Btree) (node_id : Nat) : Nat → Option Btree
  | 0 => none
  | fuel + 1 => do
    let node ← t.nodes.get? node_id
    let npv ← node.values.get? (node.values.length / 2)
    let L := t.nodes.length
    let branch : Option (List Node × Node) :=
      if node.is_leaf then
        let right : Node :=
          { values := node.values.drop (node.values.length / 2),
            ptrs := node.ptrs.drop (node.ptrs.length / 2),
            left_sibling := some node_id, right_sibling := node.right_sibling,
            parent := node.parent, is_leaf := node.is_leaf }
        let step1 : Option (List Node) :=
          match node.right_sibling with
          | none => some t.nodes
          | some rs => updateNode t.nodes rs (fun m => { m with left_sibling := some L })
        match step1 with
        | none => none
        | some ns1 =>
          match updateNode ns1 node_id (fun m => { m with right_sibling := some L }) with
          | none => none
          | some ns2 => some (ns2, right)
      else
        let right_ptrs :=
          if t.b % 2 = 1 then node.ptrs.drop (node.ptrs.length / 2)
          else node.ptrs.drop (node.ptrs.length / 2 + 1)
        let right : Node :=
          { values := node.values.drop (node.values.length / 2 + 1),
            ptrs := right_ptrs, parent := node.parent, is_leaf := node.is_leaf }
        match updateNode t.nodes node_id (fun m => { m with right_sibling := none }) with
        | none => none
        | some ns1 =>
          match reparent ns1 right_ptrs L with
          | none => none
          | some ns2 => some (ns2, right)
    let (ns2, right) ← branch
    let ns3 ← updateNode ns2 node_id
      (fun m => { m with values := m.values.take (m.values.length / 2) })
    let ns4 ← updateNode ns3 node_id
      (fun m => { m with ptrs := if t.b % 2 = 1 then m.ptrs.take (m.ptrs.length / 2)
                                 else m.ptrs.take (m.ptrs.length / 2 + 1) })
    let ns5 := ns4 ++ [right]
    let node' ← ns5.get? node_id
    match node'.parent with
    | none =>
      let parentNode : Node :=
        { values := [npv], ptrs := [node_id, ns5.length - 1],
          parent := node'.parent, is_leaf := false }
      let ns6 := ns5 ++ [parentNode]
      let newRoot := ns6.length - 1
      let ns7 ← updateNode ns6 node_id (fun m => { m with parent := some newRoot })
      let ns8 ← updateNode ns7 L (fun m => { m with parent := some newRoot })
      pure { t with nodes := ns8, root := some newRoot }
    | some p =>
      let ns6 ← updateNode ns5 p (fun m => m.insert npv (ns5.length - 1))
      let pn ← ns6.get? p
      let t' : Btree := { t with nodes := ns6 }
      if pn.values.length = t.b then t'.split p fuel else pure t'

/-- `Btree.insert` (lines 97-113).  The unused `rptr` parameter is
omitted.  An empty tree first gets a fresh root leaf at index 0. -/
def Btree.insert (t : Btree) (value : Int) (ptr : Nat) : Option Btree := do
  let t1 : Btree :=
    match t.root with
    | none => { t with nodes := t.nodes ++ [{ values := [], ptrs := [], is_leaf := true }],
                       root := some 0 }
    | some _ => t
  let idx ← t1.search value
  let ns ← updateNode t1.nodes idx (fun m => m.insert value ptr)
  let n ← ns.get? idx
  let t2 : Btree := { t1 with nodes := ns }
  if n.values.length = t1.b then t2.split idx (t2.nodes.length + 1) else pure t2

/-- Build a tree from the empty tree by a sequence of `insert` calls. -/
def mkTree (b : Nat) (entries : List (Int × Nat)) : Option Btree :=
  entries.foldlM (fun t e => t.insert e.1 e.2) (Btree.new b)

/-- The filtering pass of a `find` comparison branch (e.g. lines
438-442): walk `values` with its index, and for each key satisfying
`pred` read `ptrs[idx]` (collected here together with the key it was
read for).  A missing pointer is an uncaught IndexError, hence `none`;
a key that fails the test never touches `ptrs`. -/
def collectMatches (pred : Int → Bool) : List Int → List Nat → Option (List (Int × Nat))
  | [], _ => some []
  | v :: vs, ps =>
    if pred v then
      match ps with
      | [] => none
      | p :: ps' => (collectMatches pred vs ps').map (fun r => (v, p) :: r)
    else collectMatches pred vs (ps.drop 1)

/-- The sibling walk of `find` (e.g. lines 443-445): follow `next`
links, returning the visited nodes; fuel bounds a walk over a malformed
(cyclic) chain, and a dangling id is a crash. -/
def walkChain (nodes : List Node) (next : Node → Option Nat) :
    Option Nat → Nat → Option (List Node)
  | _, 0 => none
  | none, _ => some []
  | some i, fuel + 1 =>
    match nodes.get? i with
    | none => none
    | some n =>
      match walkChain nodes next (next n) fuel with
      | none => none
      | some rest => some (n :: rest)

/-- `Btree.find` (lines 414-476).  The source's equality operator is the
string `'=='`; its branch wraps the lookup in a bare `try/except`, so
both a missing key and a missing pointer yield the empty result.  The
four comparison branches filter the target leaf and then extend the
result with every pointer of every sibling reached (`rightSibling` for
`'>'`/`'>='`, `leftSibling` for `'<'`/`'<='`).  An operator equal to
none of the five strings falls through every branch and the initial
empty `results` list is returned.  (The final benchmarking `print` does
not affect the result and is omitted.) -/
def Btree.find (t : Btree) (op : String) (value : Int) : Option (List Nat) := do
  let li ← t.search value
  let tn ← t.nodes.get? li
  if op = "==" then
    match tn.values.findIdx? (fun v => v = value) with
    | none => pure []
    | some i =>
      match tn.ptrs.get? i with
      | none => pure []
      | some p => pure [p]
  else if op = ">" then
    let ms ← collectMatches (fun v => value < v) tn.values tn.ptrs
    let ws ← walkChain t.nodes Node.right_sibling tn.right_sibling (t.nodes.length + 1)
    pure (ms.map Prod.snd ++ (ws.map Node.ptrs).flatten)
  else if op = ">=" then
    let ms ← collectMatches (fun v => value ≤ v) tn.values tn.ptrs
    let ws ← walkChain t.nodes Node.right_sibling tn.right_sibling (t.nodes.length + 1)
    pure (ms.map Prod.snd ++ (ws.map Node.ptrs).flatten)
  else if op = "<" then
    let ms ← collectMatches (fun v => v < value) tn.values tn.ptrs
    let ws ← walkChain t.nodes Node.left_sibling tn.left_sibling (t.nodes.length + 1)
    pure (ms.map Prod.snd ++ (ws.map Node.ptrs).flatten)
  else if op = "<=" then
    let ms ← collectMatches (fun v => v ≤ value) tn.values tn.ptrs
    let ws ← walkChain t.nodes Node.left_sibling tn.left_sibling (t.nodes.length + 1)
    pure (ms.map Prod.snd ++ (ws.map Node.ptrs).flatten)
  else pure []

/-- Ghost companion of `Btree.find`: the same scan, but each returned
pointer is kept together with the key stored alongside it in its leaf
(the loop variable `node_value` for the target leaf, and the
positionally corresponding entry of `values` for a walked sibling).
This is what `find` returning pointers "in key order" refers to. -/
def Btree.findEntries (t : Btree) (op : String) (value : Int) :
    Option (List (Int × Nat)) := do
  let li ← t.search value
  let tn ← t.nodes.get? li
  if op = "==" then
    match tn.values.findIdx? (fun v => v = value) with
    | none => pure []
    | some i =>
      match tn.ptrs.get? i with
      | none => pure []
      | some p => pure [(value, p)]
  else if op = ">" then
    let ms ← collectMatches (fun v => value < v) tn.values tn.ptrs
    let ws ← walkChain t.nodes Node.right_sibling tn.right_sibling (t.nodes.length + 1)
    pure (ms ++ (ws.map (fun n => n.values.zip n.ptrs)).flatten)
  else if op = ">=" then
    let ms ← collectMatches (fun v => value ≤ v) tn.values tn.ptrs
    let ws ← walkChain t.nodes Node.right_sibling tn.right_sibling (t.nodes.length + 1)
    pure (ms ++ (ws.map (fun n => n.values.zip n.ptrs)).flatten)
  else if op = "<" then
    let ms ← collectMatches (fun v => v < value) tn.values tn.ptrs
    let ws ← walkChain t.nodes Node.left_sibling tn.left_sibling (t.nodes.length + 1)
    pure (ms ++ (ws.map (fun n => n.values.zip n.ptrs)).flatten)
  else if op = "<=" then
    let ms ← collectMatches (fun v => v ≤ value) tn.values tn.ptrs
    let ws ← walkChain t.nodes Node.left_sibling tn.left_sibling (t.nodes.length + 1)
    pure (ms ++ (ws.map (fun n => n.values.zip n.ptrs)).flatten)
  else pure []

/-- Neither `Btree.find` nor the `Btree._search` it calls contains a
single assignment to `self` or to any node of the arena (lines 115-137
and 414-476 only read); the state component of a call is therefore the
unchanged tree.  `findFull` makes that (absent) state effect explicit. -/
def Btree.findFull (t : Btree) (op : String) (value : Int) :
    Btree × Option (List Nat) :=
  (t, t.find op value)

/-- The messages printed by `Btree.delete` on its two
not-found paths (lines 231 and 234). -/
inductive DeleteMsg where
  | valueNotInPtr
  | valueNotInTree
  deriving Repr, DecidableEq

/-- The loop of `Btree.delete` (lines 214-232) over
`enumerate(node_.values)` with running index `i`, current `ptrs` list
and the `temp` flag.  `values` is not mutated on any non-crashing path,
so the iteration walks the original key list.  On a matching key whose
pointer also matches: with more than one pointer the source pops the
first occurrence of `ptr` and continues the loop; the
`elif node_ == self.root` branch compares a `Node` object with an
integer index and is therefore never taken; the final `else` branch
pops from the (now too short) pointer list and then executes
`del node_.ptrs[i]`, an unconditional IndexError, modelled as `none`.
On a matching key with a different pointer the source prints
"Value not in ptr" and returns at once. -/
def deleteLoop (value : Int) (ptr : Nat) :
    List Int → Nat → List Nat → Bool → Option (List Nat × Bool × Option DeleteMsg)
  | [], _, ps, temp => some (ps, temp, none)
  | v :: vs, i, ps, temp =>
    if v = value then
      match ps.get? i with
      | none => none
      | some pi =>
        if pi = ptr then
          if ps.length > 1 then deleteLoop value ptr vs (i + 1) (ps.erase ptr) true
          else none
        else some (ps, true, some DeleteMsg.valueNotInPtr)
    else deleteLoop value ptr vs (i + 1) ps temp

/-- `Btree.delete` (lines 211-234): locate the leaf for `value`, run the
deletion loop on it, and if no key matched print "Value not in Tree".
The Python method always returns `None`; the printed message (if any) is
returned here as an explicit value next to the updated tree. -/
def Btree.delete (t : Btree) (value : Int) (ptr : Nat) :
    Option (Btree × Option DeleteMsg) := do
  let idx ← t.search value
  let node ← t.nodes.get? idx
  let (ptrs', temp, msg) ← deleteLoop value ptr node.values 0 node.ptrs false
  let ns ← updateNode t.nodes idx (fun m => { m with ptrs := ptrs' })
  match msg with
  | some m => pure ({ t with nodes := ns }, some m)
  | none =>
    if temp then pure ({ t with nodes := ns }, none)
    else pure ({ t with nodes := ns }, some DeleteMsg.valueNotInTree)

/-- Descend from the root through first children to the leftmost leaf. -/
def leftmostLeaf (nodes : List Node) : Option Nat → Nat → Option Nat
  | _, 0 => none
  | none, _ => none
  | some i, fuel + 1 =>
    match nodes.get? i with
    | none => none
    | some n => if n.is_leaf then some i else leftmostLeaf nodes (n.ptrs.get? 0) fuel

/-- The nodes visited when walking `rightSibling` from the leftmost
leaf to the end of the sibling chain. -/
def Btree.chainNodes (t : Btree) : Option (List Node) := do
  let l0 ← leftmostLeaf t.nodes t.root (t.nodes.length + 1)
  walkChain t.nodes Node.right_sibling (some l0) (t.nodes.length + 1)

/-- The concatenated key sequence of the leaf chain. -/
def Btree.chainKeys (t : Btree) : Option (List Int) :=
  t.chainNodes.map (fun ns => (ns.map Node.values).flatten)

/-- The concatenated (key, pointer) pairs of the leaf chain. -/
def Btree.chainEntries (t : Btree) : Option (List (Int × Nat)) :=
  t.chainNodes.map (fun ns => (ns.map (fun n => n.values.zip n.ptrs)).flatten)

/-! ### Concrete input sequences used by the claim theorems -/

/-- The spec's concrete scenario: `b = 3`, inserting
`(5,0),(12,1),(7,2),(3,3),(2,4),(9,5)` in order (also run by
`vsmdb.py`). -/
def scenarioEntries : List (Int × Nat) :=
  [(5, 0), (12, 1), (7, 2), (3, 3), (2, 4), (9, 5)]

/-- A `b = 4` sequence with duplicate keys: four copies of key 5, then
1, 2 and 6. -/
def dupEntries : List (Int × Nat) :=
  [(5, 10), (5, 11), (5, 12), (5, 13), (1, 14), (2, 15), (6, 16)]

/-! ### Claim theorems -/

/-- Claim C1: for every tree built from the empty tree by insert calls,
walking `rightSibling` from the leftmost leaf visits only leaves and
yields every stored (key, pointer) pair in non-decreasing key order,
exactly once.  The code violates the ordering: with `b = 4`, inserting
`(5,10),(5,11),(5,12),(5,13),(1,14),(2,15),(6,16)` makes a leaf split
promote key 5 while the parent already holds separator 5, so
`Node.insert` appends the new right half *after* the parent's last
child instead of adjacent to the left half; the next insert of 6 is
then routed into that displaced leaf and the chain reads
`[1, 2, 5, 5, 6, 5, 5]` — not non-decreasing. -/
theorem c1_duplicate_keys_break_chain_order :
    (mkTree 4 dupEntries).bind Btree.chainKeys = some [1, 2, 5, 5, 6, 5, 5] ∧
    ¬ List.Sorted (· ≤ ·) ([1, 2, 5, 5, 6, 5, 5] : List Int) := by
  refine ⟨by decide, by decide⟩

/-- Claim C2: for every branching factor `b ≥ 2`, even or odd, every
leaf of a tree built by inserts has as many keys as record pointers (in
particular both halves of a leaf split).  The code violates this for
even `b`: the left half of a leaf split keeps `ptrs[:len/2 + 1]`
(btree.py line 185) but only `values[:len/2]`.  With `b = 2`, after
`insert(1,10)` and `insert(2,20)` the left leaf holds one key `[1]` but
two pointers `[10, 20]` (pointer 20 is also kept by the right leaf). -/
theorem c2_even_branching_leaf_split_count_mismatch :
    (mkTree 2 [(1, 10), (2, 20)]).map
        (fun t => t.nodes.map (fun n => (n.is_leaf, n.values, n.ptrs)))
      = some [(true, [1], [10, 20]), (true, [2], [20]), (false, [2], [0, 1])] ∧
    ((mkTree 2 [(1, 10), (2, 20)]).bind (fun t => t.nodes.get? 0)).map
        (fun n => (n.values.length, n.ptrs.length))
      = some (1, 2) := by
  refine ⟨by decide, by decide⟩

/-- Claim C4: after `insert(k, p)` with `k` not in the tree,
`find('=', k)` returns `p`.  The code violates this twice over: its
equality operator is spelled `'=='`, so `find('=', k)` matches no
branch and returns the empty list; and `Node.insert` places a
mid-leaf pointer at `index + 1` (btree.py line 67), so after inserting
`(5,0),(12,1),(7,2)` with `b = 3` even `find('==', 7)` returns `[1]` —
the pointer that was inserted with key 12 — instead of `[2]`. -/
theorem c4_insert_find_roundtrip_fails :
    (mkTree 3 [(5, 0), (12, 1), (7, 2)]).bind (fun t => t.find "=" 7) = some [] ∧
    (mkTree 3 [(5, 0), (12, 1), (7, 2)]).bind (fun t => t.find "==" 7) = some [1] := by
  refine ⟨by decide, by decide⟩

/-- Claim C5 (counterexample): the claimed final shape for the `b = 3`
scenario — height 2, a left leaf with keys `[2,3,5]` and a right leaf
with keys `[7,9,12]` — does not occur: a `b = 3` node can hold at most
2 keys, so the arena after the six inserts contains no node with keys
`[2,3,5]` at all (the final tree has four leaves under two internal
nodes). -/
theorem c5_scenario_counterexample :
    (mkTree 3 scenarioEntries).map (fun t => t.nodes.map Node.values)
      = some [[2], [7], [3], [3, 5], [9, 12], [9], [7]] ∧
    ([2, 3, 5] : List Int) ∉
      [[2], [7], [3], [3, 5], [9, 12], [9], [7]] := by
  refine ⟨by decide, by decide⟩

/-- Claim C5 as amended to what the code actually does on the scenario:
the third insert makes the root leaf hold `[5,7,12]` and split
promoting 7 (leaves `[5]` and `[7,12]`, root keys `[7]`), but the later
inserts split twice more, so the final tree has height 3: root keys
`[7]` over internal nodes `[3]` and `[9]`, with four chained leaves
`[2] → [3,5] → [7] → [9,12]`; the stored pairs are misassociated by the
pointer off-by-one (e.g. key 7 is stored with pointer 1), and
`find('>=', 7)` returns `[1, 2, 5]` — the pointers stored in the slots
of keys 7, 9, 12 in ascending key order, not the pointers those keys
were inserted with. -/
theorem c5_scenario_actual :
    ((mkTree 3 (scenarioEntries.take 2)).bind (fun t => t.nodes.get? 0)).map
        (fun n => (n.insert 7 2).values) = some [5, 7, 12] ∧
    (mkTree 3 (scenarioEntries.take 3)).map
        (fun t => (t.root, t.nodes.map (fun n => (n.is_leaf, n.values))))
      = some (some 2, [(true, [5]), (true, [7, 12]), (false, [7])]) ∧
    (mkTree 3 scenarioEntries).map
        (fun t => (t.root, t.nodes.map (fun n => (n.is_leaf, n.values))))
      = some (some 6,
          [(true, [2]), (true, [7]), (false, [3]), (true, [3, 5]),
           (true, [9, 12]), (false, [9]), (false, [7])]) ∧
    (mkTree 3 scenarioEntries).map (fun t => t.nodes.map Node.right_sibling)
      = some [some 3, some 4, none, some 1, none, none, none] ∧
    ((mkTree 3 scenarioEntries).bind Btree.chainNodes).map (List.map Node.values)
      = some [[2], [3, 5], [7], [9, 12]] ∧
    (mkTree 3 scenarioEntries).bind Btree.chainEntries
      = some [(2, 0), (3, 4), (5, 3), (7, 1), (9, 2), (12, 5)] ∧
    (mkTree 3 scenarioEntries).bind (fun t => t.find ">=" 7) = some [1, 2, 5] ∧
    (mkTree 3 scenarioEntries).bind (fun t => t.findEntries ">=" 7)
      = some [(7, 1), (9, 2), (12, 5)] := by
  refine ⟨by decide, by decide, by decide, by decide, by decide, by decide,
    by decide, by decide⟩

/-- Claim C6: deleting a pair that is not in the located leaf fails
with an explicit NotFound error and leaves the tree unchanged.  The
code leaves the tree unchanged but does not fail: it prints
"Value not in Tree" (key absent) or "Value not in ptr" (key present
with a different pointer) and returns normally, surfacing nothing to
the caller.  Evaluated on the tree holding only `(5, 0)` with `b = 3`:
both `delete(6, 0)` and `delete(5, 1)` return the unchanged tree
together with the printed message. -/
theorem c6_delete_not_found_prints_and_returns :
    (mkTree 3 [(5, 0)]).bind (fun t => t.delete 6 0)
      = (mkTree 3 [(5, 0)]).map (fun t => (t, some DeleteMsg.valueNotInTree)) ∧
    (mkTree 3 [(5, 0)]).bind (fun t => t.delete 5 1)
      = (mkTree 3 [(5, 0)]).map (fun t => (t, some DeleteMsg.valueNotInPtr)) := by
  refine ⟨by decide, by decide⟩

/-- A successful descent ends at a valid index holding a leaf. -/
theorem searchLoop_isLeaf (nodes : List Node) (value : Int) :
    ∀ fuel idx li, searchLoop nodes value idx fuel = some li →
      ∃ n, nodes.get? li = some n ∧ n.is_leaf = true := by
  intro fuel
  induction fuel with
  | zero => intro idx li h; simp [searchLoop] at h
  | succ k ih =>
    intro idx li h
    rw [searchLoop] at h
    cases hg : nodes.get? idx with
    | none => rw [hg] at h; exact absurd h (by simp)
    | some n =>
      rw [hg] at h
      have h' : (if n.is_leaf = true then some idx
          else match n.find value with
               | none => none
               | some nxt => searchLoop nodes value nxt k) = some li := h
      by_cases hl : n.is_leaf = true
      · rw [if_pos hl] at h'
        have hil := Option.some.inj h'
        subst hil
        exact ⟨n, hg, hl⟩
      · rw [if_neg hl] at h'
        cases hf : n.find value with
        | none => rw [hf] at h'; exact absurd h' (by simp)
        | some nxt => rw [hf] at h'; exact ih nxt li h'

/-- A successful `_search` returns a valid index holding a leaf. -/
theorem Btree.search_isLeaf (t : Btree) (value : Int) (li : Nat)
    (h : t.search value = some li) :
    ∃ n, t.nodes.get? li = some n ∧ n.is_leaf = true := by
  rw [Btree.search] at h
  cases hr : t.root with
  | none => rw [hr] at h; exact absurd h (by simp)
  | some r => rw [hr] at h; exact searchLoop_isLeaf t.nodes value _ r li h

/-- Claim C7 (amended): the operator strings the code recognizes are
`'=='`, `'>'`, `'>='`, `'<'`, `'<='`; on any other operator string
(including the spec's `'='`) a `find` call on a non-empty searchable
tree returns the empty result list — no error is raised. -/
theorem c7_unrecognized_operator_returns_empty (t : Btree) (op : String)
    (value : Int) (li : Nat) (hsearch : t.search value = some li)
    (h1 : op ≠ "==") (h2 : op ≠ ">") (h3 : op ≠ ">=") (h4 : op ≠ "<")
    (h5 : op ≠ "<=") :
    t.find op value = some [] := by
  obtain ⟨n, hn, -⟩ := Btree.search_isLeaf t value li hsearch
  have hn' : t.nodes[li]? = some n := by rw [← List.get?_eq_getElem?]; exact hn
  simp [Btree.find, hsearch, hn, hn', h1, h2, h3, h4, h5]

/-- Witness for C7's amended theorem, on the one-leaf tree holding
`(5, 0)` with `b = 3` and the operator string `'!='`. -/
theorem c7_unrecognized_operator_returns_empty_witness :
    (Btree.mk 3 [{ values := [5], ptrs := [0], is_leaf := true }] (some 0)).find
        "!=" 5 = some [] :=
  c7_unrecognized_operator_returns_empty
    (Btree.mk 3 [{ values := [5], ptrs := [0], is_leaf := true }] (some 0))
    "!=" 5 0 (by decide) (by decide) (by decide) (by decide) (by decide)
    (by decide)

/-- Claim C7 (counterexample): on the non-empty tree built by
`insert(5, 0)` with `b = 3`, `find('!=', 5)` returns the empty result
list instead of failing with `InvalidOperator`, and the spec's own
equality symbol `'='` is not recognized either — it also just returns
`[]` although key 5 is present. -/
theorem c7_unknown_operator_returns_result :
    (mkTree 3 [(5, 0)]).bind (fun t => t.find "!=" 5) = some [] ∧
    (mkTree 3 [(5, 0)]).bind (fun t => t.find "=" 5) = some [] := by
  refine ⟨by decide, by decide⟩

/-- Claim C8: `search`, `find` and `delete` on a tree whose root is
still unset all fail.  (In the Python source the failure is an uncaught
`TypeError` from evaluating `self.nodes[None]` in `_search`, which every
one of the three operations reaches first; the embedding models that
failure as `none`.) -/
theorem c8_empty_tree_operations_fail (t : Btree) (op : String) (value : Int)
    (ptr : Nat) (h : t.root = none) :
    t.search value = none ∧ t.find op value = none ∧
      t.delete value ptr = none := by
  have hs : t.search value = none := by rw [Btree.search, h]
  refine ⟨hs, ?_, ?_⟩
  · rw [Btree.find, hs]; rfl
  · rw [Btree.delete, hs]; rfl

/-- Witness for C8 on the freshly constructed tree `Btree(3)`. -/
theorem c8_empty_tree_operations_fail_witness :
    (Btree.new 3).search 0 = none ∧ (Btree.new 3).find "=" 0 = none ∧
      (Btree.new 3).delete 0 0 = none :=
  c8_empty_tree_operations_fail (Btree.new 3) "=" 0 0 rfl

/-- Claim C10: `find` (and the `_search` it uses) is read-only: the
arena, every node's fields and the root id are unchanged by the call.
The source's `find`/`_search` bodies contain no assignment to `self` or
to any node, so the state component of the embedded call is the input
tree itself. -/
theorem c10_find_is_read_only (t : Btree) (op : String) (value : Int) :
    (t.findFull op value).1.b = t.b ∧
      (t.findFull op value).1.nodes = t.nodes ∧
      (t.findFull op value).1.root = t.root :=
  ⟨rfl, rfl, rfl⟩

/-- When a leaf has at least as many pointers as keys (every index the
filter touches exists), the filtering pass returns exactly the
predicate-satisfying (key, pointer) pairs, in leaf order. -/
theorem collectMatches_eq (pred : Int → Bool) :
    ∀ (vs : List Int) (ps : List Nat), vs.length ≤ ps.length →
      collectMatches pred vs ps
        = some ((vs.zip ps).filter (fun e => pred e.1)) := by
  intro vs
  induction vs with
  | nil => intro ps _; simp [collectMatches]
  | cons v vt ih =>
    intro ps h
    cases ps with
    | nil => exact absurd h (by simp)
    | cons p pt =>
      rw [collectMatches]
      by_cases hp : pred v
      · rw [if_pos hp]
        have := ih pt (by simpa using h)
        simp [this, List.filter_cons, hp]
      · rw [if_neg hp]
        have := ih pt (by simpa using h)
        simp [this, List.filter_cons, hp]

/-- Keys of a filtered zip are the filtered keys. -/
theorem map_fst_filter_fst (pred : Int → Bool) (l : List (Int × Nat)) :
    (l.filter (fun e => pred e.1)).map Prod.fst
      = (l.map Prod.fst).filter pred := by
  induction l with
  | nil => rfl
  | cons a l ih => by_cases hp : pred a.1 <;> simp [List.filter_cons, hp, ih]

/-- Keys of the per-leaf (key, pointer) pairs of a walked chain. -/
theorem flatten_zip_fst (ws : List Node)
    (h : ∀ n ∈ ws, n.values.length = n.ptrs.length) :
    ((ws.map (fun n => n.values.zip n.ptrs)).flatten).map Prod.fst
      = (ws.map Node.values).flatten := by
  induction ws with
  | nil => rfl
  | cons n ws ih =>
    simp only [List.map_cons, List.flatten_cons, List.map_append]
    rw [List.map_fst_zip _ _ (le_of_eq (h n (by simp)))]
    rw [ih (fun m hm => h m (by simp [hm]))]

/-- Pointers of the per-leaf (key, pointer) pairs of a walked chain. -/
theorem flatten_zip_snd (ws : List Node)
    (h : ∀ n ∈ ws, n.values.length = n.ptrs.length) :
    ((ws.map (fun n => n.values.zip n.ptrs)).flatten).map Prod.snd
      = (ws.map Node.ptrs).flatten := by
  induction ws with
  | nil => rfl
  | cons n ws ih =>
    simp only [List.map_cons, List.flatten_cons, List.map_append]
    rw [List.map_snd_zip _ _ (ge_of_eq (h n (by simp)))]
    rw [ih (fun m hm => h m (by simp [hm]))]

/-- Core of the right-walk order argument: given a target leaf and a
walked chain whose concatenated keys are non-decreasing, the filtered
target entries followed by all chain entries have non-decreasing keys,
and their pointer projection is the target's filtered pointers followed
by all chain pointers. -/
theorem rightWalk_entries_ascending (pred : Int → Bool) (tn : Node)
    (ws : List Node)
    (hcnt : tn.values.length ≤ tn.ptrs.length)
    (hwcnt : ∀ n ∈ ws, n.values.length = n.ptrs.length)
    (hsorted : List.Sorted (· ≤ ·)
      (tn.values ++ (ws.map Node.values).flatten)) :
    ∃ ms, collectMatches pred tn.values tn.ptrs = some ms ∧
      List.Sorted (· ≤ ·)
        ((ms ++ (ws.map (fun n => n.values.zip n.ptrs)).flatten).map
          Prod.fst) ∧
      (ms ++ (ws.map (fun n => n.values.zip n.ptrs)).flatten).map Prod.snd
        = ms.map Prod.snd ++ (ws.map Node.ptrs).flatten := by
  refine ⟨_, collectMatches_eq pred tn.values tn.ptrs hcnt, ?_, ?_⟩
  · rw [List.map_append, map_fst_filter_fst, List.map_fst_zip _ _ hcnt,
      flatten_zip_fst ws hwcnt]
    exact List.Pairwise.sublist
      (List.Sublist.append (List.filter_sublist _) (List.Sublist.refl _))
      hsorted
  · rw [List.map_append, flatten_zip_snd ws hwcnt]

/-- Claim C9 (counterexample): on the `b = 3` scenario tree,
`find('<', 13)` starts at the rightmost leaf and then appends each left
sibling's entries whole, so the keys associated with the returned
pointers are `[9, 12, 7, 3, 5, 2]` — not in descending order (9 is
immediately followed by the larger 12, and 3 by 5). -/
theorem c9_left_walk_not_descending :
    (mkTree 3 scenarioEntries).bind (fun t => t.findEntries "<" 13)
      = some [(9, 2), (12, 5), (7, 1), (3, 4), (5, 3), (2, 0)] ∧
    (mkTree 3 scenarioEntries).bind (fun t => t.find "<" 13)
      = some [2, 5, 1, 4, 3, 0] ∧
    ¬ List.Sorted (· ≥ ·)
        (([(9, 2), (12, 5), (7, 1), (3, 4), (5, 3), (2, 0)] :
            List (Int × Nat)).map Prod.fst) := by
  refine ⟨by decide, by decide, by decide⟩

/-- Claim C9 (amended): on a tree whose relevant leaf chain is in
order — the target leaf of the search together with the leaves reached
by the `rightSibling` walk carry non-decreasing keys, and key and
pointer counts agree — `find('>', key)` and `find('>=', key)` do return
their pointers in ascending (non-decreasing) key order; the
corresponding claim for `find('<')`/`find('<=')` (descending order) is
false: those walks emit each visited leaf's entries in ascending key
order, visiting leaves right to left. -/
theorem c9_right_walk_ascending (t : Btree) (op : String) (value : Int)
    (li : Nat) (tn : Node) (ws : List Node)
    (hop : op = ">" ∨ op = ">=")
    (hsearch : t.search value = some li)
    (hnode : t.nodes.get? li = some tn)
    (hwalk : walkChain t.nodes Node.right_sibling tn.right_sibling
      (t.nodes.length + 1) = some ws)
    (hcnt : tn.values.length ≤ tn.ptrs.length)
    (hwcnt : ∀ n ∈ ws, n.values.length = n.ptrs.length)
    (hsorted : List.Sorted (· ≤ ·)
      (tn.values ++ (ws.map Node.values).flatten)) :
    ∃ es, t.findEntries op value = some es ∧
      List.Sorted (· ≤ ·) (es.map Prod.fst) ∧
      t.find op value = some (es.map Prod.snd) := by
  have hn' : t.nodes[li]? = some tn := by
    rw [← List.get?_eq_getElem?]; exact hnode
  rcases hop with h | h <;> subst h
  · have ne1 : (">" : String) ≠ "==" := by decide
    obtain ⟨ms, hms, hsort, hsnd⟩ :=
      rightWalk_entries_ascending (fun v => value < v) tn ws hcnt hwcnt hsorted
    refine ⟨ms ++ (ws.map (fun n => n.values.zip n.ptrs)).flatten,
      ?_, hsort, ?_⟩
    · simp [Btree.findEntries, hsearch, hn', ne1, hms, hwalk]
    · rw [hsnd]
      simp [Btree.find, hsearch, hn', ne1, hms, hwalk]
  · have ne1 : (">=" : String) ≠ "==" := by decide
    have ne2 : (">=" : String) ≠ ">" := by decide
    obtain ⟨ms, hms, hsort, hsnd⟩ :=
      rightWalk_entries_ascending (fun v => value ≤ v) tn ws hcnt hwcnt hsorted
    refine ⟨ms ++ (ws.map (fun n => n.values.zip n.ptrs)).flatten,
      ?_, hsort, ?_⟩
    · simp [Btree.findEntries, hsearch, hn', ne1, ne2, hms, hwalk]
    · rw [hsnd]
      simp [Btree.find, hsearch, hn', ne1, ne2, hms, hwalk]

/-- The tree produced by the `b = 3` scenario insert sequence. -/
def scenarioTree : Btree :=
  (mkTree 3 scenarioEntries).getD (Btree.new 3)

/-- Witness for C9's amended theorem on the scenario tree: searching 7
lands in the leaf `[7]`, the right walk visits the leaf `[9, 12]`, and
the chain keys `[7, 9, 12]` are sorted, so `find('>', 7)` is returned in
ascending key order. -/
theorem c9_right_walk_ascending_witness :
    ∃ es, scenarioTree.findEntries ">" 7 = some es ∧
      List.Sorted (· ≤ ·) (es.map Prod.fst) ∧
      scenarioTree.find ">" 7 = some (es.map Prod.snd) :=
  c9_right_walk_ascending scenarioTree ">" 7 1
    { values := [7], ptrs := [1], left_sibling := some 3,
      right_sibling := some 4, parent := some 5, is_leaf := true }
    [{ values := [9, 12], ptrs := [2, 5], left_sibling := some 1,
       parent := some 5, is_leaf := true }]
    (Or.inl rfl) (by decide) (by decide) (by decide) (by decide)
    (by decide) (by decide)

/-! ### Small index lemmas used by the split theorem -/

theorem lt_length_of_get?_some : ∀ {α : Type} (l : List α) (i : Nat) (a : α),
    l.get? i = some a → i < l.length
  | _, [], i, a, h => by simp [List.get?] at h
  | _, _ :: _, 0, _, _ => Nat.succ_pos _
  | _, _ :: l, i + 1, a, h =>
    Nat.succ_lt_succ (lt_length_of_get?_some l i a h)

theorem get?_set_self : ∀ {α : Type} (l : List α) (i : Nat) (a : α),
    i < l.length → (l.set i a).get? i = some a
  | _, [], _, _, h => absurd h (by simp)
  | _, _ :: _, 0, _, _ => rfl
  | _, _ :: l, i + 1, a, h => get?_set_self l i a (by simpa using h)

theorem get?_set_other : ∀ {α : Type} (l : List α) (i j : Nat) (a : α),
    i ≠ j → (l.set i a).get? j = l.get? j
  | _, [], _, _, _, _ => rfl
  | _, _ :: _, 0, 0, _, h => absurd rfl h
  | _, _ :: _, 0, _ + 1, _, _ => rfl
  | _, _ :: _, _ + 1, 0, _, _ => rfl
  | _, _ :: l, i + 1, j + 1, a, h =>
    get?_set_other l i j a (fun e => h (by rw [e]))

theorem get?_append_left : ∀ {α : Type} (l l' : List α) (n : Nat),
    n < l.length → (l ++ l').get? n = l.get? n
  | _, [], _, _, h => absurd h (by simp)
  | _, _ :: _, _, 0, _ => rfl
  | _, _ :: l, l', n + 1, h => get?_append_left l l' n (by simpa using h)

theorem get?_append_length : ∀ {α : Type} (l l' : List α),
    (l ++ l').get? l.length = l'.get? 0
  | _, [], _ => rfl
  | _, _ :: l, l' => get?_append_length l l'

/-- `list.insert` always grows a list by one. -/
theorem pyInsert_length {α : Type} (l : List α) (i : Nat) (x : α) :
    (pyInsert l i x).length = l.length + 1 := by
  simp [pyInsert]
  omega

/-- `Node.insert` adds exactly one key. -/
theorem Node.insert_values_length (n : Node) (v : Int) (p : Nat) :
    (n.insert v p).values.length = n.values.length + 1 := by
  rw [Node.insert]
  cases n.values.findIdx? (fun w => v < w) with
  | none => simp
  | some i => simp [pyInsert_length]

/-- The reparenting loop succeeds on in-bounds ids, preserves the arena
length and touches no node outside the given id list. -/
theorem reparent_spec (P : Nat) : ∀ (l : List Nat) (ns : List Node),
    (∀ p ∈ l, p < ns.length) →
    ∃ ns', reparent ns l P = some ns' ∧ ns'.length = ns.length ∧
      ∀ j, j ∉ l → ns'.get? j = ns.get? j := by
  intro l
  induction l with
  | nil => intro ns _; exact ⟨ns, rfl, rfl, fun _ _ => rfl⟩
  | cons p rest ih =>
    intro ns h
    have hp : p < ns.length := h p (by simp)
    obtain ⟨n, hn⟩ : ∃ n, ns.get? p = some n := by
      exact ⟨ns.get ⟨p, hp⟩, List.get?_eq_get hp⟩
    have hup : updateNode ns p (fun m => { m with parent := some P })
        = some (ns.set p { n with parent := some P }) := by
      rw [updateNode, hn]
    obtain ⟨ns', h1, h2, h3⟩ :=
      ih (ns.set p { n with parent := some P })
        (fun q hq => by rw [List.length_set]; exact h q (by simp [hq]))
    refine ⟨ns', ?_, ?_, ?_⟩
    · rw [reparent, hup]; exact h1
    · rw [h2, List.length_set]
    · intro j hj
      have hjp : p ≠ j := fun e => hj (by simp [e])
      have hjr : j ∉ rest := fun e => hj (by simp [e])
      rw [h3 j hjr, get?_set_other _ _ _ _ hjp]

/-- Claim C3: whenever `split` runs on an internal node holding `b` keys
and `b + 1` children (for any `b ≥ 2`, even or odd), each resulting
internal node has exactly one more child pointer than keys, and the
promoted key is `keys[b / 2]` of the pre-split node, retained in
neither half (the left half keeps `keys[: b/2]`, the right half
`keys[b/2 + 1 :]`).  Hypotheses ask only that the state is locally
well formed: the node's children are in-bounds ids not equal to the
node itself, and the node's parent (when present) is a distinct node
that does not overflow from this single split, so the statement is
about this one split invocation and no recursive cascade fires. -/
theorem c3_internal_split_preserves_fanout (t : Btree) (node_id fuel : Nat) (node : Node)
    (h0 : t.nodes.get? node_id = some node)
    (hleaf : node.is_leaf = false)
    (hvals : node.values.length = t.b)
    (hptrs : node.ptrs.length = t.b + 1)
    (hb : 2 ≤ t.b)
    (hbound : ∀ p ∈ node.ptrs, p < t.nodes.length)
    (hself : node_id ∉ node.ptrs)
    (hpar : node.parent = none ∨ ∃ q pn, node.parent = some q ∧ q ≠ node_id ∧
      q ∉ node.ptrs ∧ t.nodes.get? q = some pn ∧ pn.values.length + 1 ≠ t.b) :
    ∃ t' lnode rnode pk,
      t.split node_id (fuel + 1) = some t' ∧
      node.values.get? (t.b / 2) = some pk ∧
      t'.nodes.get? node_id = some lnode ∧
      t'.nodes.get? t.nodes.length = some rnode ∧
      lnode.values = node.values.take (t.b / 2) ∧
      rnode.values = node.values.drop (t.b / 2 + 1) ∧
      lnode.is_leaf = false ∧ rnode.is_leaf = false ∧
      lnode.ptrs.length = lnode.values.length + 1 ∧
      rnode.ptrs.length = rnode.values.length + 1 ∧
      (node.parent = none → t'.root = some (t.nodes.length + 1) ∧
        (t'.nodes.get? (t.nodes.length + 1)).map Node.values = some [pk]) ∧
      (∀ q pn, node.parent = some q → t.nodes.get? q = some pn →
        t'.nodes.get? q = some (pn.insert pk t.nodes.length)) := by
  obtain ⟨nv, np, nls, nrs, npar, nlf⟩ := node
  simp only at hleaf hvals hptrs hbound hself hpar
  subst hleaf
  have hnid : node_id < t.nodes.length := lt_length_of_get?_some _ _ _ h0
  have hlv2 : 2 ≤ nv.length := by omega
  have hdiv : nv.length / 2 < nv.length := Nat.div_lt_self (by omega) (by omega)
  have hpk : nv.get? (nv.length / 2) = some (nv.get ⟨nv.length / 2, hdiv⟩) := List.get?_eq_get hdiv
  have hpk2 : nv.get? (t.b / 2) = some (nv.get ⟨nv.length / 2, hdiv⟩) := by rw [← hvals]; exact hpk
  have hub1 : updateNode t.nodes node_id (fun m => { m with right_sibling := none })
      = some (t.nodes.set node_id (Node.mk nv np nls none npar false)) := by
    rw [updateNode, h0]
  have hrpmem : ∀ p ∈ (if t.b % 2 = 1 then List.drop (np.length / 2) np else List.drop (np.length / 2 + 1) np), p ∈ np := by
    intro p hp
    by_cases hc : t.b % 2 = 1
    · rw [if_pos hc] at hp; exact List.mem_of_mem_drop hp
    · rw [if_neg hc] at hp; exact List.mem_of_mem_drop hp
  obtain ⟨ns2, hrep, hlen2', hget2⟩ := reparent_spec t.nodes.length (if t.b % 2 = 1 then List.drop (np.length / 2) np else List.drop (np.length / 2 + 1) np)
    (t.nodes.set node_id (Node.mk nv np nls none npar false))
    (fun p hp => by rw [List.length_set]; exact hbound p (hrpmem p hp))
  have hns2len : ns2.length = t.nodes.length := by rw [hlen2', List.length_set]
  have hnotin : node_id ∉ (if t.b % 2 = 1 then List.drop (np.length / 2) np else List.drop (np.length / 2 + 1) np) := fun h => hself (hrpmem _ h)
  have hn2 : ns2.get? node_id = some (Node.mk nv np nls none npar false) := by
    rw [hget2 _ hnotin, get?_set_self _ _ _ hnid]
  have hub3 : updateNode ns2 node_id
      (fun m => { m with values := m.values.take (m.values.length / 2) })
      = some (ns2.set node_id (Node.mk (List.take (nv.length / 2) nv) np nls none npar false)) := by
    rw [updateNode, hn2]
  have hn3 : (ns2.set node_id (Node.mk (List.take (nv.length / 2) nv) np nls none npar false)).get? node_id = some (Node.mk (List.take (nv.length / 2) nv) np nls none npar false) :=
    get?_set_self _ _ _ (by rw [hns2len]; exact hnid)
  have hub4 : updateNode (ns2.set node_id (Node.mk (List.take (nv.length / 2) nv) np nls none npar false)) node_id
      (fun m => { m with ptrs := if t.b % 2 = 1 then m.ptrs.take (m.ptrs.length / 2)
                                  else m.ptrs.take (m.ptrs.length / 2 + 1) })
      = some ((ns2.set node_id (Node.mk (List.take (nv.length / 2) nv) np nls none npar false)).set node_id (Node.mk (List.take (nv.length / 2) nv) (if t.b % 2 = 1 then List.take (np.length / 2) np else List.take (np.length / 2 + 1) np) nls none npar false)) := by
    rw [updateNode, hn3]
  have hns4len : (((ns2.set node_id (Node.mk (List.take (nv.length / 2) nv) np nls none npar false)).set node_id (Node.mk (List.take (nv.length / 2) nv) (if t.b % 2 = 1 then List.take (np.length / 2) np else List.take (np.length / 2 + 1) np) nls none npar false))).length = t.nodes.length := by
    rw [List.length_set, List.length_set, hns2len]
  have hn5 : ((((ns2.set node_id (Node.mk (List.take (nv.length / 2) nv) np nls none npar false)).set node_id (Node.mk (List.take (nv.length / 2) nv) (if t.b % 2 = 1 then List.take (np.length / 2) np else List.take (np.length / 2 + 1) np) nls none npar false)) ++ [(Node.mk (List.drop (nv.length / 2 + 1) nv) (if t.b % 2 = 1 then List.drop (np.length / 2) np else List.drop (np.length / 2 + 1) np) none none npar false)])).get? node_id = some (Node.mk (List.take (nv.length / 2) nv) (if t.b % 2 = 1 then List.take (np.length / 2) np else List.take (np.length / 2 + 1) np) nls none npar false) := by
    rw [get?_append_left _ _ _ (by rw [hns4len]; exact hnid)]
    exact get?_set_self _ _ _ (by rw [List.length_set, hns2len]; exact hnid)
  have hPTlen : ((if t.b % 2 = 1 then List.take (np.length / 2) np else List.take (np.length / 2 + 1) np)).length = t.b / 2 + 1 := by
    by_cases hc : t.b % 2 = 1
    · rw [if_pos hc, List.length_take, hptrs]; omega
    · rw [if_neg hc, List.length_take, hptrs]; omega
  have hPDlen : ((if t.b % 2 = 1 then List.drop (np.length / 2) np else List.drop (np.length / 2 + 1) np)).length = t.b - t.b / 2 := by
    by_cases hc : t.b % 2 = 1
    · rw [if_pos hc, List.length_drop, hptrs]; omega
    · rw [if_neg hc, List.length_drop, hptrs]; omega
  have hvtake : (List.take (nv.length / 2) nv).length = t.b / 2 := by
    rw [List.length_take]; omega
  have hvdrop : (List.drop (nv.length / 2 + 1) nv).length = t.b - (t.b / 2 + 1) := by
    rw [List.length_drop]; omega
  rcases hpar with hparn | ⟨q, pn, hparq, hqne, hqnp, hqget, hqlen⟩
  · subst hparn
    have hn6 : (((((ns2.set node_id (Node.mk (List.take (nv.length / 2) nv) np nls none none false)).set node_id (Node.mk (List.take (nv.length / 2) nv) (if t.b % 2 = 1 then List.take (np.length / 2) np else List.take (np.length / 2 + 1) np) nls none none false)) ++ [(Node.mk (List.drop (nv.length / 2 + 1) nv) (if t.b % 2 = 1 then List.drop (np.length / 2) np else List.drop (np.length / 2 + 1) np) none none none false)])) ++ [(Node.mk [(nv.get ⟨nv.length / 2, hdiv⟩)] [node_id, t.nodes.length] none none none false)]).get? node_id = some (Node.mk (List.take (nv.length / 2) nv) (if t.b % 2 = 1 then List.take (np.length / 2) np else List.take (np.length / 2 + 1) np) nls none none false) := by
      rw [get?_append_left _ _ _ (by
        simp only [List.length_append, hns4len, List.length_singleton]; omega)]
      exact hn5
    have hub6 : updateNode (((((ns2.set node_id (Node.mk (List.take (nv.length / 2) nv) np nls none none false)).set node_id (Node.mk (List.take (nv.length / 2) nv) (if t.b % 2 = 1 then List.take (np.length / 2) np else List.take (np.length / 2 + 1) np) nls none none false)) ++ [(Node.mk (List.drop (nv.length / 2 + 1) nv) (if t.b % 2 = 1 then List.drop (np.length / 2) np else List.drop (np.length / 2 + 1) np) none none none false)])) ++ [(Node.mk [(nv.get ⟨nv.length / 2, hdiv⟩)] [node_id, t.nodes.length] none none none false)]) node_id
        (fun m => { m with parent := some (t.nodes.length + 1) })
        = some ((((((ns2.set node_id (Node.mk (List.take (nv.length / 2) nv) np nls none none false)).set node_id (Node.mk (List.take (nv.length / 2) nv) (if t.b % 2 = 1 then List.take (np.length / 2) np else List.take (np.length / 2 + 1) np) nls none none false)) ++ [(Node.mk (List.drop (nv.length / 2 + 1) nv) (if t.b % 2 = 1 then List.drop (np.length / 2) np else List.drop (np.length / 2 + 1) np) none none none false)])) ++ [(Node.mk [(nv.get ⟨nv.length / 2, hdiv⟩)] [node_id, t.nodes.length] none none none false)]).set node_id (Node.mk (List.take (nv.length / 2) nv) (if t.b % 2 = 1 then List.take (np.length / 2) np else List.take (np.length / 2 + 1) np) nls none (some (t.nodes.length + 1)) false)) := by
      rw [updateNode, hn6]
    have hn7 : (((((((ns2.set node_id (Node.mk (List.take (nv.length / 2) nv) np nls none none false)).set node_id (Node.mk (List.take (nv.length / 2) nv) (if t.b % 2 = 1 then List.take (np.length / 2) np else List.take (np.length / 2 + 1) np) nls none none false)) ++ [(Node.mk (List.drop (nv.length / 2 + 1) nv) (if t.b % 2 = 1 then List.drop (np.length / 2) np else List.drop (np.length / 2 + 1) np) none none none false)])) ++ [(Node.mk [(nv.get ⟨nv.length / 2, hdiv⟩)] [node_id, t.nodes.length] none none none false)]).set node_id (Node.mk (List.take (nv.length / 2) nv) (if t.b % 2 = 1 then List.take (np.length / 2) np else List.take (np.length / 2 + 1) np) nls none (some (t.nodes.length + 1)) false))).get? t.nodes.length
        = some (Node.mk (List.drop (nv.length / 2 + 1) nv) (if t.b % 2 = 1 then List.drop (np.length / 2) np else List.drop (np.length / 2 + 1) np) none none none false) := by
      rw [get?_set_other _ _ _ _ (Nat.ne_of_lt hnid)]
      rw [get?_append_left _ _ _ (by
        simp only [List.length_append, hns4len, List.length_singleton]; omega)]
      rw [← hns4len, get?_append_length]
      rfl
    have hub7 : updateNode ((((((ns2.set node_id (Node.mk (List.take (nv.length / 2) nv) np nls none none false)).set node_id (Node.mk (List.take (nv.length / 2) nv) (if t.b % 2 = 1 then List.take (np.length / 2) np else List.take (np.length / 2 + 1) np) nls none none false)) ++ [(Node.mk (List.drop (nv.length / 2 + 1) nv) (if t.b % 2 = 1 then List.drop (np.length / 2) np else List.drop (np.length / 2 + 1) np) none none none false)])) ++ [(Node.mk [(nv.get ⟨nv.length / 2, hdiv⟩)] [node_id, t.nodes.length] none none none false)]).set node_id (Node.mk (List.take (nv.length / 2) nv) (if t.b % 2 = 1 then List.take (np.length / 2) np else List.take (np.length / 2 + 1) np) nls none (some (t.nodes.length + 1)) false))
        t.nodes.length (fun m => { m with parent := some (t.nodes.length + 1) })
        = some (((((((ns2.set node_id (Node.mk (List.take (nv.length / 2) nv) np nls none none false)).set node_id (Node.mk (List.take (nv.length / 2) nv) (if t.b % 2 = 1 then List.take (np.length / 2) np else List.take (np.length / 2 + 1) np) nls none none false)) ++ [(Node.mk (List.drop (nv.length / 2 + 1) nv) (if t.b % 2 = 1 then List.drop (np.length / 2) np else List.drop (np.length / 2 + 1) np) none none none false)])) ++ [(Node.mk [(nv.get ⟨nv.length / 2, hdiv⟩)] [node_id, t.nodes.length] none none none false)]).set node_id (Node.mk (List.take (nv.length / 2) nv) (if t.b % 2 = 1 then List.take (np.length / 2) np else List.take (np.length / 2 + 1) np) nls none (some (t.nodes.length + 1)) false)).set t.nodes.length (Node.mk (List.drop (nv.length / 2 + 1) nv) (if t.b % 2 = 1 then List.drop (np.length / 2) np else List.drop (np.length / 2 + 1) np) none none (some (t.nodes.length + 1)) false)) := by
      rw [updateNode, hn7]
    have hsplit : t.split node_id (fuel + 1) = some (Btree.mk t.b ((((((ns2.set node_id (Node.mk (List.take (nv.length / 2) nv) np nls none none false)).set node_id (Node.mk (List.take (nv.length / 2) nv) (if t.b % 2 = 1 then List.take (np.length / 2) np else List.take (np.length / 2 + 1) np) nls none none false)) ++ [(Node.mk (List.drop (nv.length / 2 + 1) nv) (if t.b % 2 = 1 then List.drop (np.length / 2) np else List.drop (np.length / 2 + 1) np) none none none false)]) ++ [(Node.mk [(nv.get ⟨nv.length / 2, hdiv⟩)] [node_id, t.nodes.length] none none none false)]).set node_id (Node.mk (List.take (nv.length / 2) nv) (if t.b % 2 = 1 then List.take (np.length / 2) np else List.take (np.length / 2 + 1) np) nls none (some (t.nodes.length + 1)) false)).set t.nodes.length (Node.mk (List.drop (nv.length / 2 + 1) nv) (if t.b % 2 = 1 then List.drop (np.length / 2) np else List.drop (np.length / 2 + 1) np) none none (some (t.nodes.length + 1)) false)) (some (t.nodes.length + 1))) := by
      rw [Btree.split, h0]
      simp only [Option.bind_eq_bind, Option.some_bind]
      rw [hpk]
      simp only [Option.bind_eq_bind, Option.some_bind, Bool.false_eq_true, if_false]
      rw [hub1]
      simp only []
      rw [hrep]
      simp only [Option.bind_eq_bind, Option.some_bind]
      rw [hub3]
      simp only [Option.bind_eq_bind, Option.some_bind]
      rw [hub4]
      simp only [Option.bind_eq_bind, Option.some_bind]
      rw [hn5]
      simp only [Option.bind_eq_bind, Option.some_bind]
      simp only [List.length_append, List.length_set, hns2len, List.length_singleton,
        Nat.add_sub_cancel]
      rw [hub6]
      simp only [Option.bind_eq_bind, Option.some_bind]
      rw [hub7]
      simp only [Option.bind_eq_bind, Option.some_bind, Option.pure_def]
    refine ⟨(Btree.mk t.b ((((((ns2.set node_id (Node.mk (List.take (nv.length / 2) nv) np nls none none false)).set node_id (Node.mk (List.take (nv.length / 2) nv) (if t.b % 2 = 1 then List.take (np.length / 2) np else List.take (np.length / 2 + 1) np) nls none none false)) ++ [(Node.mk (List.drop (nv.length / 2 + 1) nv) (if t.b % 2 = 1 then List.drop (np.length / 2) np else List.drop (np.length / 2 + 1) np) none none none false)]) ++ [(Node.mk [(nv.get ⟨nv.length / 2, hdiv⟩)] [node_id, t.nodes.length] none none none false)]).set node_id (Node.mk (List.take (nv.length / 2) nv) (if t.b % 2 = 1 then List.take (np.length / 2) np else List.take (np.length / 2 + 1) np) nls none (some (t.nodes.length + 1)) false)).set t.nodes.length (Node.mk (List.drop (nv.length / 2 + 1) nv) (if t.b % 2 = 1 then List.drop (np.length / 2) np else List.drop (np.length / 2 + 1) np) none none (some (t.nodes.length + 1)) false)) (some (t.nodes.length + 1))), (Node.mk (List.take (nv.length / 2) nv) (if t.b % 2 = 1 then List.take (np.length / 2) np else List.take (np.length / 2 + 1) np) nls none (some (t.nodes.length + 1)) false), (Node.mk (List.drop (nv.length / 2 + 1) nv) (if t.b % 2 = 1 then List.drop (np.length / 2) np else List.drop (np.length / 2 + 1) np) none none (some (t.nodes.length + 1)) false), (nv.get ⟨nv.length / 2, hdiv⟩), hsplit, hpk2, ?_, ?_, ?_, ?_, rfl, rfl, ?_, ?_, ?_, ?_⟩
    · show ((_ : List Node).set t.nodes.length _).get? node_id = _
      rw [get?_set_other _ _ _ _ (Nat.ne_of_lt hnid).symm]
      exact get?_set_self _ _ _ (by
        simp only [List.length_append, hns4len, List.length_singleton]; omega)
    · exact get?_set_self _ _ _ (by
        simp only [List.length_set, List.length_append, hns4len, List.length_singleton]
        omega)
    · show List.take (nv.length / 2) nv = List.take (t.b / 2) nv
      rw [hvals]
    · show List.drop (nv.length / 2 + 1) nv = List.drop (t.b / 2 + 1) nv
      rw [hvals]
    · show ((if t.b % 2 = 1 then List.take (np.length / 2) np else List.take (np.length / 2 + 1) np)).length = (List.take (nv.length / 2) nv).length + 1
      rw [hPTlen, hvtake]
    · show ((if t.b % 2 = 1 then List.drop (np.length / 2) np else List.drop (np.length / 2 + 1) np)).length = (List.drop (nv.length / 2 + 1) nv).length + 1
      rw [hPDlen, hvdrop]; omega
    · intro _
      refine ⟨rfl, ?_⟩
      show (((_ : List Node).set t.nodes.length _).get? (t.nodes.length + 1)).map Node.values = _
      rw [get?_set_other _ _ _ _ (by omega)]
      rw [get?_set_other _ _ _ _ (by omega)]
      have hlen56 : ((((ns2.set node_id (Node.mk (List.take (nv.length / 2) nv) np nls none none false)).set node_id (Node.mk (List.take (nv.length / 2) nv) (if t.b % 2 = 1 then List.take (np.length / 2) np else List.take (np.length / 2 + 1) np) nls none none false)) ++ [(Node.mk (List.drop (nv.length / 2 + 1) nv) (if t.b % 2 = 1 then List.drop (np.length / 2) np else List.drop (np.length / 2 + 1) np) none none none false)])).length = t.nodes.length + 1 := by
        simp only [List.length_append, hns4len, List.length_singleton]
      rw [← hlen56, get?_append_length]
      rfl
    · intro q pn hq _
      simp at hq
  · subst hparq
    have hq5 : ((((ns2.set node_id (Node.mk (List.take (nv.length / 2) nv) np nls none (some q) false)).set node_id (Node.mk (List.take (nv.length / 2) nv) (if t.b % 2 = 1 then List.take (np.length / 2) np else List.take (np.length / 2 + 1) np) nls none (some q) false)) ++ [(Node.mk (List.drop (nv.length / 2 + 1) nv) (if t.b % 2 = 1 then List.drop (np.length / 2) np else List.drop (np.length / 2 + 1) np) none none (some q) false)])).get? q = some pn := by
      rw [get?_append_left _ _ _ (by
        rw [hns4len]; exact lt_length_of_get?_some _ _ _ hqget)]
      rw [get?_set_other _ _ _ _ (fun e => hqne e.symm)]
      rw [get?_set_other _ _ _ _ (fun e => hqne e.symm)]
      rw [hget2 _ (fun hmem => hqnp (hrpmem _ hmem))]
      rw [get?_set_other _ _ _ _ (fun e => hqne e.symm)]
      exact hqget
    have hub8 : updateNode ((((ns2.set node_id (Node.mk (List.take (nv.length / 2) nv) np nls none (some q) false)).set node_id (Node.mk (List.take (nv.length / 2) nv) (if t.b % 2 = 1 then List.take (np.length / 2) np else List.take (np.length / 2 + 1) np) nls none (some q) false)) ++ [(Node.mk (List.drop (nv.length / 2 + 1) nv) (if t.b % 2 = 1 then List.drop (np.length / 2) np else List.drop (np.length / 2 + 1) np) none none (some q) false)])) q
        (fun m => m.insert (nv.get ⟨nv.length / 2, hdiv⟩) t.nodes.length)
        = some (((((ns2.set node_id (Node.mk (List.take (nv.length / 2) nv) np nls none (some q) false)).set node_id (Node.mk (List.take (nv.length / 2) nv) (if t.b % 2 = 1 then List.take (np.length / 2) np else List.take (np.length / 2 + 1) np) nls none (some q) false)) ++ [(Node.mk (List.drop (nv.length / 2 + 1) nv) (if t.b % 2 = 1 then List.drop (np.length / 2) np else List.drop (np.length / 2 + 1) np) none none (some q) false)])).set q (pn.insert (nv.get ⟨nv.length / 2, hdiv⟩) t.nodes.length)) := by
      rw [updateNode, hq5]
    have hq6 : (((((ns2.set node_id (Node.mk (List.take (nv.length / 2) nv) np nls none (some q) false)).set node_id (Node.mk (List.take (nv.length / 2) nv) (if t.b % 2 = 1 then List.take (np.length / 2) np else List.take (np.length / 2 + 1) np) nls none (some q) false)) ++ [(Node.mk (List.drop (nv.length / 2 + 1) nv) (if t.b % 2 = 1 then List.drop (np.length / 2) np else List.drop (np.length / 2 + 1) np) none none (some q) false)])).set q (pn.insert (nv.get ⟨nv.length / 2, hdiv⟩) t.nodes.length)).get? q
        = some (pn.insert (nv.get ⟨nv.length / 2, hdiv⟩) t.nodes.length) :=
      get?_set_self _ _ _ (by
        simp only [List.length_append, hns4len, List.length_singleton]
        have := lt_length_of_get?_some _ _ _ hqget
        omega)
    have hsplit : t.split node_id (fuel + 1) = some (Btree.mk t.b ((((ns2.set node_id (Node.mk (List.take (nv.length / 2) nv) np nls none (some q) false)).set node_id (Node.mk (List.take (nv.length / 2) nv) (if t.b % 2 = 1 then List.take (np.length / 2) np else List.take (np.length / 2 + 1) np) nls none (some q) false)) ++ [(Node.mk (List.drop (nv.length / 2 + 1) nv) (if t.b % 2 = 1 then List.drop (np.length / 2) np else List.drop (np.length / 2 + 1) np) none none (some q) false)]).set q (pn.insert (nv.get ⟨nv.length / 2, hdiv⟩) t.nodes.length)) t.root) := by
      rw [Btree.split, h0]
      simp only [Option.bind_eq_bind, Option.some_bind]
      rw [hpk]
      simp only [Option.bind_eq_bind, Option.some_bind, Bool.false_eq_true, if_false]
      rw [hub1]
      simp only []
      rw [hrep]
      simp only [Option.bind_eq_bind, Option.some_bind]
      rw [hub3]
      simp only [Option.bind_eq_bind, Option.some_bind]
      rw [hub4]
      simp only [Option.bind_eq_bind, Option.some_bind]
      rw [hn5]
      simp only [Option.bind_eq_bind, Option.some_bind]
      simp only [List.length_append, List.length_set, hns2len, List.length_singleton,
        Nat.add_sub_cancel]
      rw [hub8]
      simp only [Option.bind_eq_bind, Option.some_bind]
      rw [hq6]
      simp only [Option.bind_eq_bind, Option.some_bind]
      rw [if_neg (by rw [Node.insert_values_length]; exact hqlen)]
      simp only [Option.pure_def]
    refine ⟨(Btree.mk t.b ((((ns2.set node_id (Node.mk (List.take (nv.length / 2) nv) np nls none (some q) false)).set node_id (Node.mk (List.take (nv.length / 2) nv) (if t.b % 2 = 1 then List.take (np.length / 2) np else List.take (np.length / 2 + 1) np) nls none (some q) false)) ++ [(Node.mk (List.drop (nv.length / 2 + 1) nv) (if t.b % 2 = 1 then List.drop (np.length / 2) np else List.drop (np.length / 2 + 1) np) none none (some q) false)]).set q (pn.insert (nv.get ⟨nv.length / 2, hdiv⟩) t.nodes.length)) t.root), (Node.mk (List.take (nv.length / 2) nv) (if t.b % 2 = 1 then List.take (np.length / 2) np else List.take (np.length / 2 + 1) np) nls none (some q) false), (Node.mk (List.drop (nv.length / 2 + 1) nv) (if t.b % 2 = 1 then List.drop (np.length / 2) np else List.drop (np.length / 2 + 1) np) none none (some q) false), (nv.get ⟨nv.length / 2, hdiv⟩), hsplit, hpk2, ?_, ?_, ?_, ?_, rfl, rfl, ?_, ?_, ?_, ?_⟩
    · show ((_ : List Node).set q _).get? node_id = _
      rw [get?_set_other _ _ _ _ hqne]
      exact hn5
    · show ((_ : List Node).set q _).get? t.nodes.length = _
      rw [get?_set_other _ _ _ _ (by
        have := lt_length_of_get?_some _ _ _ hqget; omega)]
      have h4 : (((ns2.set node_id (Node.mk (List.take (nv.length / 2) nv) np nls none (some q) false)).set node_id (Node.mk (List.take (nv.length / 2) nv) (if t.b % 2 = 1 then List.take (np.length / 2) np else List.take (np.length / 2 + 1) np) nls none (some q) false))).length = t.nodes.length := hns4len
      rw [← h4, get?_append_length]
      rfl
    · show List.take (nv.length / 2) nv = List.take (t.b / 2) nv
      rw [hvals]
    · show List.drop (nv.length / 2 + 1) nv = List.drop (t.b / 2 + 1) nv
      rw [hvals]
    · show ((if t.b % 2 = 1 then List.take (np.length / 2) np else List.take (np.length / 2 + 1) np)).length = (List.take (nv.length / 2) nv).length + 1
      rw [hPTlen, hvtake]
    · show ((if t.b % 2 = 1 then List.drop (np.length / 2) np else List.drop (np.length / 2 + 1) np)).length = (List.drop (nv.length / 2 + 1) nv).length + 1
      rw [hPDlen, hvdrop]; omega
    · intro h
      simp at h
    · intro q' pn' hq' hget'
      have hq'' : q' = q := by injection hq' with e; exact e.symm
      subst hq''
      rw [hqget] at hget'
      have hpneq : pn' = pn := by injection hget' with e; exact e.symm
      subst hpneq
      exact get?_set_self _ _ _ (by
        simp only [List.length_append, hns4len, List.length_singleton]
        have := lt_length_of_get?_some _ _ _ hqget
        omega)

/-- A concrete state for the C3 witness: three leaves under one
internal node holding 2 keys and 3 children, with `b = 2`. -/
def splitWitnessTree : Btree :=
  { b := 2,
    nodes :=
      [{ values := [1], ptrs := [100], is_leaf := true },
       { values := [15], ptrs := [101], is_leaf := true },
       { values := [25], ptrs := [102], is_leaf := true },
       { values := [10, 20], ptrs := [0, 1, 2] }],
    root := some 3 }

/-- Witness for C3: splitting the internal root of `splitWitnessTree`
(`b = 2`, keys `[10, 20]`, children `[0, 1, 2]`) promotes key 20 and
leaves two internal nodes with one more child than keys each. -/
theorem c3_internal_split_preserves_fanout_witness :
    ∃ t' lnode rnode pk,
      splitWitnessTree.split 3 1 = some t' ∧
      ([10, 20] : List Int).get? 1 = some pk ∧
      t'.nodes.get? 3 = some lnode ∧
      t'.nodes.get? 4 = some rnode ∧
      lnode.values = ([10, 20] : List Int).take 1 ∧
      rnode.values = ([10, 20] : List Int).drop 2 ∧
      lnode.is_leaf = false ∧ rnode.is_leaf = false ∧
      lnode.ptrs.length = lnode.values.length + 1 ∧
      rnode.ptrs.length = rnode.values.length + 1 ∧
      ((none : Option Nat) = none → t'.root = some 5 ∧
        (t'.nodes.get? 5).map Node.values = some [pk]) ∧
      (∀ q pn, (none : Option Nat) = some q →
        splitWitnessTree.nodes.get? q = some pn →
        t'.nodes.get? q = some (pn.insert pk 4)) :=
  c3_internal_split_preserves_fanout splitWitnessTree 3 0
    { values := [10, 20], ptrs := [0, 1, 2] } rfl rfl (by decide) (by decide)
    (by decide) (by decide) (by decide) (Or.inl rfl)
